import Mathlib

/-!
Shallow embedding of `scripts/run_claude.py`: an agent harness exposing four
local tools (file read, file write, file edit, shell execution), an
append-only structured audit log with a derived markdown transcript, a task
loader, a prompt template, and a `main` driver.

Modelling conventions: file contents, paths and messages are lists of
characters (`Str`); the filesystem is a partial map from paths to contents;
the possibility that an individual I/O operation raises an exception is
captured by an explicit environment (`IOEnv`) of fault oracles; the wall
clock is a natural number carried in the state, stamped onto each log
record at write time.
-/

abbrev Str := List Char

/-- Boolean test that `pat` is an initial segment of `s`; the primitive used
to locate occurrences the way Python's `in` and `str.replace` scan a string
left to right. -/
def startsWithB : Str → Str → Bool
  | [], _ => true
  | _ :: _, [] => false
  | p :: ps, c :: cs => decide (p = c) && startsWithB ps cs

/-- Boolean test that `pat` occurs contiguously somewhere in `s`
(Python `pat in s`). -/
def containsB (pat : Str) : Str → Bool
  | [] => startsWithB pat []
  | c :: rest => startsWithB pat (c :: rest) || containsB pat rest

/-- `s.replace(old, new, 1)`: replace the first (leftmost) occurrence of
`old` in `s` by `new`; `s` is returned unchanged when `old` does not
occur. -/
def replaceFirst (old new : Str) : Str → Str
  | [] => if startsWithB old [] then new else []
  | c :: rest =>
      if startsWithB old (c :: rest) then new ++ (c :: rest).drop old.length
      else c :: replaceFirst old new rest

/-- `pat` occurs as a contiguous substring of `s` (the propositional form of
Python's `pat in s`). -/
def occursIn (pat s : Str) : Prop := ∃ a b, s = a ++ pat ++ b

/-- Number of positions of `s` at which `pat` matches (overlapping matches
counted); used to state "occurs exactly once". -/
def countOcc (pat : Str) : Str → Nat
  | [] => if startsWithB pat [] then 1 else 0
  | c :: rest => (if startsWithB pat (c :: rest) then 1 else 0) + countOcc pat rest

/-- Payload of one structured log record, before the timestamp is stamped on:
the three record shapes `log_to_agent` is called with. -/
inductive EntryData
  | request (content : Str)
  | response (content : Str)
  | toolUse (tool : Str) (args : List (Str × Str))
deriving DecidableEq

/-- One line of the structured audit log (`/tmp/agent.log`). -/
structure LogEntry where
  data : EntryData
  timestamp : Nat
deriving DecidableEq

/-- Behaviour of `subprocess.run(command, shell=True, ...)` for a given
command: either spawning raises, or the process runs for `duration` seconds
of wall-clock time and finishes with the given streams and exit status. -/
inductive ProcBehavior
  | raises (msg : Str)
  | runs (duration : Nat) (stdout : Str) (stderr : Str) (exitCode : Nat)
deriving DecidableEq

/-- Fault oracles for the I/O the script performs: `logRaise` is the
exception (if any) raised by appending to the structured log, `mdRaise` the
exception raised by writing the markdown transcript, `readRaise`/`writeRaise`
the per-path exceptions of opening a file for reading/writing, and `proc`
the behaviour of the shell for each command. -/
structure IOEnv where
  logRaise : Option Str
  mdRaise : Option Str
  readRaise : Str → Option Str
  writeRaise : Str → Option Str
  proc : Str → ProcBehavior

/-- Observable state: the filesystem, the structured log, the transcript,
the diagnostic stream (`print`ed warnings), and the current clock. -/
structure AgentState where
  fs : Str → Option Str
  agentLog : List LogEntry
  transcript : List Str
  diagnostics : List Str
  clock : Nat

/-- The dictionaries returned by the four tools:
`{"success": True, "content": c}`, `{"success": True}`,
`{"success": True, "stdout": o, "stderr": e}`, and
`{"success": False, "error": m}`. -/
inductive ToolResult
  | okContent (content : Str)
  | okUnit
  | okProc (stdout : Str) (stderr : Str)
  | failure (error : Str)
deriving DecidableEq

/-- The `success` field of a tool result dictionary. -/
def ToolResult.success : ToolResult → Bool
  | .failure _ => false
  | _ => true

/-- The warning printed when writing the transcript raises:
`print(f"Warning writing prompts.md: {e}")`. -/
def warnMsg (e : Str) : Str := "Warning writing prompts.md: ".toList ++ e

/-- Rendering of one record's args in the transcript (`json.dumps(args)`). -/
def renderArgs : List (Str × Str) → Str
  | [] => []
  | (k, v) :: rest => k ++ ": ".toList ++ v ++ "\n".toList ++ renderArgs rest

/-- The markdown section appended to `/tmp/prompts.md` for one record,
chosen by the record's type. -/
def renderMd : EntryData → List Str
  | .request c => ["\n## 🧠 Prompt Sent to Gemini\n\n".toList, c ++ "\n".toList]
  | .response c => ["\n## 🤖 Gemini Response\n\n".toList, c ++ "\n".toList]
  | .toolUse t args =>
      ["\n## 🛠️ Tool Used: ".toList ++ t ++ "\n\n".toList, renderArgs args]

/-- `log_to_agent`: stamp the entry with the current clock, append it to the
structured log, then best-effort append a rendering to the transcript.  An
exception while appending to the structured log propagates (`.error`) and
nothing is written; an exception while writing the transcript is caught and
reported on the diagnostic stream, and the call still succeeds. -/
def log_to_agent (env : IOEnv) (entry : EntryData) (s : AgentState) :
    Except Str AgentState :=
  match env.logRaise with
  | some e => .error e
  | none =>
      let s1 : AgentState := { s with agentLog := s.agentLog ++ [⟨entry, s.clock⟩] }
      match env.mdRaise with
      | some e => .ok { s1 with diagnostics := s1.diagnostics ++ [warnMsg e] }
      | none => .ok { s1 with transcript := s1.transcript ++ renderMd entry }

/-- `open(file_path, "r").read()`: raises per the oracle, raises when the
file is absent, and otherwise yields the content. -/
def readFS (env : IOEnv) (fs : Str → Option Str) (p : Str) : Except Str Str :=
  match env.readRaise p with
  | some e => .error e
  | none =>
      match fs p with
      | none => .error ("No such file or directory: ".toList ++ p)
      | some c => .ok c

/-- Point update of the filesystem map. -/
def updateFS (fs : Str → Option Str) (p c : Str) : Str → Option Str :=
  fun q => if q = p then some c else fs q

/-- `open(file_path, "w").write(content)`: full replacement of the file,
raising per the oracle. -/
def writeFS (env : IOEnv) (fs : Str → Option Str) (p c : Str) :
    Except Str (Str → Option Str) :=
  match env.writeRaise p with
  | some e => .error e
  | none => .ok (updateFS fs p c)

/-- Tool `read_file`: read the file, then log one `tool_use` record; any
exception (from the read or from the log append) is caught and returned as
`success: False` with the exception's message. -/
def read_file (env : IOEnv) (file_path : Str) (s : AgentState) :
    ToolResult × AgentState :=
  match readFS env s.fs file_path with
  | .error e => (.failure e, s)
  | .ok content =>
      match log_to_agent env
          (.toolUse "read_file".toList [("file_path".toList, file_path)]) s with
      | .error e => (.failure e, s)
      | .ok s1 => (.okContent content, s1)

/-- Tool `write_file`: write the file (full replacement), then log one
`tool_use` record; any exception is caught and returned as `success: False`
with the exception's message. -/
def write_file (env : IOEnv) (file_path content : Str) (s : AgentState) :
    ToolResult × AgentState :=
  match writeFS env s.fs file_path content with
  | .error e => (.failure e, s)
  | .ok fs1 =>
      match log_to_agent env
          (.toolUse "write_file".toList [("file_path".toList, file_path)])
          { s with fs := fs1 } with
      | .error e => (.failure e, { s with fs := fs1 })
      | .ok s1 => (.okUnit, s1)

/-- Tool `edit_file`: read the file; if `old_text` does not occur, fail with
`"Old text not found"`; otherwise write back the content with the first
occurrence replaced, then log one `tool_use` record.  Any exception is
caught and returned as `success: False` with the exception's message. -/
def edit_file (env : IOEnv) (file_path old_text new_text : Str)
    (s : AgentState) : ToolResult × AgentState :=
  match readFS env s.fs file_path with
  | .error e => (.failure e, s)
  | .ok content =>
      if containsB old_text content then
        match writeFS env s.fs file_path (replaceFirst old_text new_text content) with
        | .error e => (.failure e, s)
        | .ok fs1 =>
            match log_to_agent env
                (.toolUse "edit_file".toList [("file_path".toList, file_path)])
                { s with fs := fs1 } with
            | .error e => (.failure e, { s with fs := fs1 })
            | .ok s1 => (.okUnit, s1)
      else (.failure "Old text not found".toList, s)

/-- `str(subprocess.TimeoutExpired(command, 60))`. -/
def timeoutMsg (command : Str) : Str :=
  "Command '".toList ++ command ++ "' timed out after 60 seconds".toList

/-- Tool `run_bash`: run the command through the shell with a 60-second
wall-clock timeout, then log one `tool_use` record.  A process that finishes
in time is a success carrying its stdout and stderr whatever its exit
status; a spawn exception or a timeout is caught and returned as
`success: False` with the exception's message. -/
def run_bash (env : IOEnv) (command : Str) (s : AgentState) :
    ToolResult × AgentState :=
  match env.proc command with
  | .raises e => (.failure e, s)
  | .runs duration out errOut _exitCode =>
      if duration ≤ 60 then
        match log_to_agent env
            (.toolUse "run_bash".toList [("command".toList, command)]) s with
        | .error e => (.failure e, s)
        | .ok s1 => (.okProc out errOut, s1)
      else (.failure (timeoutMsg command), s)

/-- One invocation of one of the four tools. -/
inductive ToolCall
  | read (file_path : Str)
  | write (file_path : Str) (content : Str)
  | edit (file_path old_text new_text : Str)
  | execute (command : Str)

/-- Dispatch a tool call. -/
def runTool (env : IOEnv) : ToolCall → AgentState → ToolResult × AgentState
  | .read p => read_file env p
  | .write p c => write_file env p c
  | .edit p o n => edit_file env p o n
  | .execute c => run_bash env c

/-- The `tool` field a call logs. -/
def toolName : ToolCall → Str
  | .read _ => "read_file".toList
  | .write _ _ => "write_file".toList
  | .edit _ _ _ => "edit_file".toList
  | .execute _ => "run_bash".toList

/-- The `args` mapping a call logs (each tool logs only the fields the
source logs: the path, or the command). -/
def toolArgs : ToolCall → List (Str × Str)
  | .read p => [("file_path".toList, p)]
  | .write p _ => [("file_path".toList, p)]
  | .edit p _ _ => [("file_path".toList, p)]
  | .execute c => [("command".toList, c)]

/-- The `tests` sub-mapping of a parsed task file; a missing key is `none`. -/
structure TestsMap where
  fail_to_pass : Option (List Str)

/-- A parsed task file as the raw mapping `yaml.safe_load` returns; each
relevant key may be absent. -/
structure TaskMap where
  description : Option Str
  requirements : Option Str
  interface : Option Str
  tests : Option TestsMap
  files_to_modify : Option (List Str)

/-- `load_task`: parse the task file and return the raw mapping unchanged —
no schema validation; a parse/read error propagates. -/
def load_task (parsed : Except Str TaskMap) : Except Str TaskMap := parsed

/-- The fully-populated task record the prompt template consumes. -/
structure TaskSpec where
  description : Str
  requirements : Str
  interface : Str
  fail_to_pass : List Str
  files_to_modify : List Str

/-- `", ".join(xs)`. -/
def joinCommaSpace (xs : List Str) : Str := List.intercalate ", ".toList xs

/-- Template text before `description`. -/
def promptPre : Str := "\nYou are an expert software engineer.\n\nTask:\n".toList

/-- Template text between `description` and `requirements`. -/
def promptReq : Str := "\n\nRequirements:\n".toList

/-- Template text between `requirements` and `interface`. -/
def promptIface : Str := "\n\nInterface:\n".toList

/-- Template text between `interface` and the failing tests. -/
def promptTests : Str := "\n\nFailing tests:\n".toList

/-- Template text between the failing tests and the files to modify. -/
def promptFiles : Str := "\n\nFiles to modify:\n".toList

/-- Closing directive of the template. -/
def promptClose : Str :=
  "\n\nExplain the fix and produce patch-ready code changes.\n".toList

/-- The `task_instruction` f-string: the fixed template with the task's
fields spliced in, in order. -/
def buildPrompt (t : TaskSpec) : Str :=
  promptPre ++ t.description ++ promptReq ++ t.requirements ++ promptIface ++
    t.interface ++ promptTests ++ joinCommaSpace t.fail_to_pass ++ promptFiles ++
    joinCommaSpace t.files_to_modify ++ promptClose

/-- The exception raised by indexing a mapping with an absent key. -/
inductive PyErr
  | keyError (key : Str)
deriving DecidableEq

/-- `mapping[key]`: the value, or a `KeyError` for the absent key. -/
def getKey {α : Type} (v : Option α) (key : Str) : Except PyErr α :=
  match v with
  | none => .error (.keyError key)
  | some x => .ok x

/-- Building `task_instruction` from the raw mapping: the f-string accesses
`task['description']`, `task['requirements']`, `task['interface']`,
`task['tests']['fail_to_pass']`, `task['files_to_modify']` in that order,
raising `KeyError` at the first absent key. -/
def promptOfMap (task : TaskMap) : Except PyErr Str :=
  match getKey task.description "description".toList with
  | .error e => .error e
  | .ok d =>
      match getKey task.requirements "requirements".toList with
      | .error e => .error e
      | .ok r =>
          match getKey task.interface "interface".toList with
          | .error e => .error e
          | .ok i =>
              match getKey task.tests "tests".toList with
              | .error e => .error e
              | .ok ts =>
                  match getKey ts.fail_to_pass "fail_to_pass".toList with
                  | .error e => .error e
                  | .ok ftp =>
                      match getKey task.files_to_modify "files_to_modify".toList with
                      | .error e => .error e
                      | .ok fm => .ok (buildPrompt ⟨d, r, i, ftp, fm⟩)

/-- The provider's reply: either the expected shape
(`candidates[0].content.parts[0].text`) or a malformed object whose
`str(...)` rendering is used as a fallback. -/
inductive ProviderResponse
  | wellFormed (text : Str)
  | malformed (rendered : Str)

/-- `response.candidates[0].content.parts[0].text` with the
`except: text = str(response)` fallback. -/
def extractText : ProviderResponse → Str
  | .wellFormed t => t
  | .malformed r => r

/-- Observable outcome of one run of `main`: the process exit code, what was
printed to stdout, whether the provider was called, and the final structured
log. -/
structure RunOutcome where
  exitCode : Nat
  printed : List Str
  networkCalled : Bool
  finalLog : List LogEntry

/-- `"Error: GEMINI_API_KEY not set"`. -/
def keyMissingMsg : Str := "Error: GEMINI_API_KEY not set".toList

/-- `"Sending request to Gemini..."`. -/
def sendingMsg : Str := "Sending request to Gemini...".toList

/-- `"Gemini completed response."`. -/
def completedMsg : Str := "Gemini completed response.".toList

/-- The interpreter's rendering of an uncaught exception. -/
def uncaughtMsg (e : Str) : Str :=
  "Traceback (most recent call last): ".toList ++ e

/-- `str(KeyError(key))`. -/
def renderPyErr : PyErr → Str
  | .keyError k => "KeyError: ".toList ++ k

/-- `main`: load the task, check the credential (exiting with code 1 and a
diagnostic when it is absent, before creating the client), build the prompt,
log the request, call the model, log the response, and print the result.  An
uncaught exception (task parse failure, `KeyError` in the template, a log
append failure) aborts the run with exit code 1. -/
def mainRun (env : IOEnv) (apiKey : Option Str) (taskLoad : Except Str TaskMap)
    (resp : ProviderResponse) (s0 : AgentState) : RunOutcome :=
  match load_task taskLoad with
  | .error e => ⟨1, [uncaughtMsg e], false, s0.agentLog⟩
  | .ok task =>
      match apiKey with
      | none => ⟨1, [keyMissingMsg], false, s0.agentLog⟩
      | some _ =>
          match promptOfMap task with
          | .error e => ⟨1, [uncaughtMsg (renderPyErr e)], false, s0.agentLog⟩
          | .ok prompt =>
              match log_to_agent env (.request prompt) s0 with
              | .error e => ⟨1, [uncaughtMsg e], false, s0.agentLog⟩
              | .ok s1 =>
                  match log_to_agent env (.response (extractText resp)) s1 with
                  | .error e => ⟨1, [sendingMsg, uncaughtMsg e], true, s1.agentLog⟩
                  | .ok s2 =>
                      ⟨0, [sendingMsg, completedMsg, extractText resp], true,
                        s2.agentLog⟩

/-- Timestamps along the structured log are non-decreasing. -/
def logMono (l : List LogEntry) : Prop :=
  List.Chain' (fun x y => x.timestamp ≤ y.timestamp) l

lemma startsWithB_iff (p : Str) : ∀ s : Str, startsWithB p s = true ↔ ∃ t, s = p ++ t := by
  induction p with
  | nil => intro s; simp [startsWithB]
  | cons x xs ih =>
      intro s
      cases s with
      | nil => simp [startsWithB]
      | cons c cs =>
          simp only [startsWithB, Bool.and_eq_true, decide_eq_true_eq, ih]
          constructor
          · rintro ⟨hx, t, ht⟩
            exact ⟨t, by simp [hx, ht]⟩
          · rintro ⟨t, ht⟩
            simp only [List.cons_append, List.cons.injEq] at ht
            exact ⟨ht.1.symm, t, ht.2⟩

lemma containsB_iff (p : Str) : ∀ s : Str, containsB p s = true ↔ occursIn p s := by
  intro s
  induction s with
  | nil =>
      simp only [containsB, startsWithB_iff, occursIn]
      constructor
      · rintro ⟨t, ht⟩
        have hlen := congrArg List.length ht
        simp at hlen
        have hp : p = [] := List.length_eq_zero.mp (by omega)
        exact ⟨[], [], by simp [hp]⟩
      · rintro ⟨a, b, hab⟩
        have hlen := congrArg List.length hab
        simp at hlen
        have hp : p = [] := List.length_eq_zero.mp (by omega)
        exact ⟨[], by simp [hp]⟩
  | cons c cs ih =>
      simp only [containsB, Bool.or_eq_true, startsWithB_iff, ih, occursIn]
      constructor
      · rintro (⟨t, ht⟩ | ⟨a, b, hab⟩)
        · exact ⟨[], t, by simp [ht]⟩
        · exact ⟨c :: a, b, by simp [hab]⟩
      · rintro ⟨a, b, hab⟩
        cases a with
        | nil => exact Or.inl ⟨b, hab⟩
        | cons x a' =>
            simp only [List.cons_append, List.cons.injEq] at hab
            exact Or.inr ⟨a', b, hab.2⟩

lemma dropAppendLen (a : Str) : ∀ b : Str, (a ++ b).drop a.length = b := by
  induction a with
  | nil => intro b; simp
  | cons x xs ih => intro b; simp [ih b]

lemma replaceFirst_first (old new : Str) :
    ∀ s : Str, occursIn old s →
      ∃ a b, s = a ++ old ++ b ∧ replaceFirst old new s = a ++ new ++ b ∧
        ∀ a' b', s = a' ++ old ++ b' → a.length ≤ a'.length := by
  intro s
  induction s with
  | nil =>
      rintro ⟨a, b, hab⟩
      have hlen := congrArg List.length hab
      simp at hlen
      have hp : old = [] := List.length_eq_zero.mp (by omega)
      subst hp
      refine ⟨[], [], by simp, ?_, ?_⟩
      · simp [replaceFirst, startsWithB]
      · intro a' b' _; simp
  | cons c cs ih =>
      intro hocc
      by_cases hsw : startsWithB old (c :: cs) = true
      · rcases (startsWithB_iff old (c :: cs)).mp hsw with ⟨t, ht⟩
        refine ⟨[], t, by simpa using ht, ?_, ?_⟩
        · have hr : replaceFirst old new (c :: cs) = new ++ (c :: cs).drop old.length := by
            simp [replaceFirst, hsw]
          rw [hr, ht, dropAppendLen]
          simp
        · intro a' b' _; simp
      · have hocc' : occursIn old cs := by
          rcases hocc with ⟨a, b, hab⟩
          cases a with
          | nil =>
              exact absurd ((startsWithB_iff old (c :: cs)).mpr ⟨b, by simpa using hab⟩) hsw
          | cons x a' =>
              simp only [List.cons_append, List.cons.injEq] at hab
              exact ⟨a', b, hab.2⟩
        rcases ih hocc' with ⟨a, b, hab, hrep, hmin⟩
        refine ⟨c :: a, b, by simp [hab], ?_, ?_⟩
        · simp [replaceFirst, hsw, hrep]
        · intro a' b' h'
          cases a' with
          | nil =>
              exact absurd ((startsWithB_iff old (c :: cs)).mpr ⟨b', by simpa using h'⟩) hsw
          | cons x a'' =>
              simp only [List.cons_append, List.cons.injEq] at h'
              simpa using Nat.succ_le_succ (hmin a'' b' h'.2)

lemma log_ok_state (env : IOEnv) (entry : EntryData) (s : AgentState)
    (h : env.logRaise = none) :
    ∃ s1, log_to_agent env entry s = .ok s1 ∧
      s1.agentLog = s.agentLog ++ [⟨entry, s.clock⟩] ∧
      s1.fs = s.fs ∧ s1.clock = s.clock := by
  cases hm : env.mdRaise with
  | some e =>
      refine ⟨{ s with
        agentLog := s.agentLog ++ [⟨entry, s.clock⟩],
        diagnostics := s.diagnostics ++ [warnMsg e] }, ?_, rfl, rfl, rfl⟩
      simp [log_to_agent, h, hm]
  | none =>
      refine ⟨{ s with
        agentLog := s.agentLog ++ [⟨entry, s.clock⟩],
        transcript := s.transcript ++ renderMd entry }, ?_, rfl, rfl, rfl⟩
      simp [log_to_agent, h, hm]

lemma log_err (env : IOEnv) (entry : EntryData) (s : AgentState) (e : Str)
    (h : env.logRaise = some e) :
    log_to_agent env entry s = .error e := by
  simp [log_to_agent, h]

lemma tool_shape (env : IOEnv) (call : ToolCall) (s : AgentState) :
    ((runTool env call s).1.success = true ∧
      (runTool env call s).2.agentLog =
        s.agentLog ++ [⟨.toolUse (toolName call) (toolArgs call), s.clock⟩]) ∨
    ((runTool env call s).1.success = false ∧
      (runTool env call s).2.agentLog = s.agentLog) := by
  cases call with
  | read p =>
      cases hr : env.readRaise p with
      | some e => right; simp [runTool, read_file, readFS, hr, ToolResult.success]
      | none =>
          cases hf : s.fs p with
          | none =>
              right; simp [runTool, read_file, readFS, hr, hf, ToolResult.success]
          | some content =>
              cases hl : env.logRaise with
              | some e =>
                  right
                  simp [runTool, read_file, readFS, hr, hf, log_to_agent, hl,
                    ToolResult.success]
              | none =>
                  left
                  cases hm : env.mdRaise <;>
                    simp [runTool, read_file, readFS, hr, hf, log_to_agent, hl, hm,
                      toolName, toolArgs, ToolResult.success]
  | write p c =>
      cases hw : env.writeRaise p with
      | some e => right; simp [runTool, write_file, writeFS, hw, ToolResult.success]
      | none =>
          cases hl : env.logRaise with
          | some e =>
              right
              simp [runTool, write_file, writeFS, hw, log_to_agent, hl,
                ToolResult.success]
          | none =>
              left
              cases hm : env.mdRaise <;>
                simp [runTool, write_file, writeFS, hw, log_to_agent, hl, hm,
                  toolName, toolArgs, ToolResult.success]
  | edit p o n =>
      cases hr : env.readRaise p with
      | some e => right; simp [runTool, edit_file, readFS, hr, ToolResult.success]
      | none =>
          cases hf : s.fs p with
          | none =>
              right; simp [runTool, edit_file, readFS, hr, hf, ToolResult.success]
          | some content =>
              cases hc : containsB o content with
              | false =>
                  right
                  simp [runTool, edit_file, readFS, hr, hf, hc, ToolResult.success]
              | true =>
                  cases hw : env.writeRaise p with
                  | some e =>
                      right
                      simp [runTool, edit_file, readFS, hr, hf, hc, writeFS, hw,
                        ToolResult.success]
                  | none =>
                      cases hl : env.logRaise with
                      | some e =>
                          right
                          simp [runTool, edit_file, readFS, hr, hf, hc, writeFS, hw,
                            log_to_agent, hl, ToolResult.success]
                      | none =>
                          left
                          cases hm : env.mdRaise <;>
                            simp [runTool, edit_file, readFS, hr, hf, hc, writeFS,
                              hw, log_to_agent, hl, hm, toolName, toolArgs,
                              ToolResult.success]
  | execute c =>
      cases hp : env.proc c with
      | raises e => right; simp [runTool, run_bash, hp, ToolResult.success]
      | runs d out errOut code =>
          by_cases hd : d ≤ 60
          · cases hl : env.logRaise with
            | some e =>
                right
                simp [runTool, run_bash, hp, hd, log_to_agent, hl, ToolResult.success]
            | none =>
                left
                cases hm : env.mdRaise <;>
                  simp [runTool, run_bash, hp, hd, log_to_agent, hl, hm,
                    toolName, toolArgs, ToolResult.success]
          · right
            simp [runTool, run_bash, hp, hd, ToolResult.success]

lemma logMono_append (l : List LogEntry) (e : LogEntry) (h : logMono l)
    (hle : ∀ x ∈ l, x.timestamp ≤ e.timestamp) : logMono (l ++ [e]) := by
  induction l with
  | nil => simp [logMono]
  | cons x xs ih =>
      rw [List.cons_append]
      rw [logMono, List.chain'_cons'] at h ⊢
      refine ⟨?_, ih h.2 (fun y hy => hle y (List.mem_cons_of_mem x hy))⟩
      intro y hy
      cases xs with
      | nil =>
          simp at hy
          subst hy
          exact hle x (List.mem_cons_self x [])
      | cons z zs =>
          simp at hy
          subst hy
          exact h.1 z (by simp)

/-- All-succeeding environment: no I/O operation raises, and every shell
command runs for one second, printing nothing, with exit status 1. -/
def envOk : IOEnv :=
  ⟨none, none, fun _ => none, fun _ => none, fun _ => .runs 1 [] [] 1⟩

/-- Environment in which appending to the structured log raises. -/
def envLogFail : IOEnv :=
  ⟨some "disk full".toList, none, fun _ => none, fun _ => none,
    fun _ => .runs 1 [] [] 1⟩

/-- Environment in which writing the transcript raises. -/
def envMdFail : IOEnv :=
  ⟨none, some "prompts.md unwritable".toList, fun _ => none, fun _ => none,
    fun _ => .runs 1 [] [] 1⟩

/-- A filesystem holding one file `f.txt` with content `aab`. -/
def fsA : Str → Option Str :=
  fun q => if q = "f.txt".toList then some "aab".toList else none

/-- An initial state over `fsA` with an empty log and clock 5. -/
def st0 : AgentState := ⟨fsA, [], [], [], 5⟩

/-- C1: a tool invocation succeeds if and only if exactly one `tool_use`
record is appended to the structured log, stamped at write time with the
current clock; a failed invocation appends nothing; and, provided the log's
timestamps were non-decreasing and the clock is at least every recorded
timestamp, the extended log's timestamps are again non-decreasing (the new
record's timestamp is ≥ every prior record's). -/
theorem tool_success_iff_logged (env : IOEnv) (call : ToolCall) (s : AgentState)
    (hmono : logMono s.agentLog)
    (hclock : ∀ x ∈ s.agentLog, x.timestamp ≤ s.clock) :
    ((runTool env call s).1.success = true ↔
      (runTool env call s).2.agentLog =
        s.agentLog ++ [⟨.toolUse (toolName call) (toolArgs call), s.clock⟩]) ∧
    ((runTool env call s).1.success = false →
      (runTool env call s).2.agentLog = s.agentLog) ∧
    logMono (runTool env call s).2.agentLog := by
  rcases tool_shape env call s with ⟨hs, hl⟩ | ⟨hs, hl⟩
  · refine ⟨⟨fun _ => hl, fun _ => hs⟩, ?_, ?_⟩
    · intro hf; rw [hs] at hf; cases hf
    · rw [hl]; exact logMono_append _ _ hmono (fun x hx => hclock x hx)
  · refine ⟨⟨?_, ?_⟩, fun _ => hl, by rw [hl]; exact hmono⟩
    · intro ht; rw [hs] at ht; cases ht
    · intro heq
      rw [hl] at heq
      have hlen := congrArg List.length heq
      simp at hlen
theorem tool_success_iff_logged_witness :
    logMono st0.agentLog ∧
    (((runTool envOk (.read "f.txt".toList) st0).1.success = true ↔
      (runTool envOk (.read "f.txt".toList) st0).2.agentLog =
        st0.agentLog ++ [⟨.toolUse (toolName (.read "f.txt".toList))
          (toolArgs (.read "f.txt".toList)), st0.clock⟩]) ∧
    ((runTool envOk (.read "f.txt".toList) st0).1.success = false →
      (runTool envOk (.read "f.txt".toList) st0).2.agentLog = st0.agentLog) ∧
    logMono (runTool envOk (.read "f.txt".toList) st0).2.agentLog) :=
  ⟨by simp [st0, logMono],
    tool_success_iff_logged envOk (.read "f.txt".toList) st0
      (by simp [st0, logMono]) (by simp [st0])⟩

lemma edit_file_ok (env : IOEnv) (s : AgentState) (p old new content : Str)
    (hr : env.readRaise p = none) (hfs : s.fs p = some content)
    (hc : containsB old content = true) (hw : env.writeRaise p = none)
    (hl : env.logRaise = none) :
    (edit_file env p old new s).1 = .okUnit ∧
    (edit_file env p old new s).2.fs = updateFS s.fs p (replaceFirst old new content) := by
  cases hm : env.mdRaise <;>
    simp [edit_file, readFS, hr, hfs, hc, writeFS, hw, log_to_agent, hl, hm]

lemma edit_file_notfound (env : IOEnv) (s : AgentState) (p old new content : Str)
    (hr : env.readRaise p = none) (hfs : s.fs p = some content)
    (hc : containsB old content = false) :
    edit_file env p old new s = (.failure "Old text not found".toList, s) := by
  simp [edit_file, readFS, hr, hfs, hc]

lemma edit_file_readfail (env : IOEnv) (s : AgentState) (p old new e : Str)
    (hr : env.readRaise p = some e) :
    edit_file env p old new s = (.failure e, s) := by
  simp [edit_file, readFS, hr]

lemma edit_file_nofile (env : IOEnv) (s : AgentState) (p old new : Str)
    (hr : env.readRaise p = none) (hfs : s.fs p = none) :
    edit_file env p old new s =
      (.failure ("No such file or directory: ".toList ++ p), s) := by
  simp [edit_file, readFS, hr, hfs]

lemma edit_file_writefail (env : IOEnv) (s : AgentState) (p old new content e : Str)
    (hr : env.readRaise p = none) (hfs : s.fs p = some content)
    (hc : containsB old content = true) (hw : env.writeRaise p = some e) :
    edit_file env p old new s = (.failure e, s) := by
  simp [edit_file, readFS, hr, hfs, hc, writeFS, hw]

lemma edit_file_fs_after_write (env : IOEnv) (s : AgentState)
    (p old new content : Str)
    (hr : env.readRaise p = none) (hfs : s.fs p = some content)
    (hc : containsB old content = true) (hw : env.writeRaise p = none) :
    (edit_file env p old new s).2.fs =
      updateFS s.fs p (replaceFirst old new content) := by
  cases hl : env.logRaise with
  | some e => simp [edit_file, readFS, hr, hfs, hc, writeFS, hw, log_to_agent, hl]
  | none =>
      cases hm : env.mdRaise <;>
        simp [edit_file, readFS, hr, hfs, hc, writeFS, hw, log_to_agent, hl, hm]

/-- C2 (amended): when `old_text` occurs in the file, `edit` succeeds and the
resulting content is the original with exactly the first (leftmost)
occurrence replaced — everything after that occurrence, including any later
occurrences, is kept verbatim; and when `old_text` does not occur in the
resulting content, calling `edit` again with the same `old_text` fails with
the error `"Old text not found"`. -/
theorem edit_replaces_first_occurrence (env : IOEnv) (s : AgentState)
    (p old new content : Str)
    (hr : env.readRaise p = none) (hw : env.writeRaise p = none)
    (hl : env.logRaise = none) (hfs : s.fs p = some content)
    (hocc : occursIn old content) :
    ∃ a b, content = a ++ old ++ b ∧
      (∀ a' b', content = a' ++ old ++ b' → a.length ≤ a'.length) ∧
      (edit_file env p old new s).1 = .okUnit ∧
      (edit_file env p old new s).2.fs p = some (a ++ new ++ b) ∧
      (¬ occursIn old (a ++ new ++ b) →
        (edit_file env p old new (edit_file env p old new s).2).1 =
          .failure "Old text not found".toList) := by
  rcases replaceFirst_first old new content hocc with ⟨a, b, hab, hrep, hmin⟩
  have hc : containsB old content = true := (containsB_iff old content).mpr hocc
  rcases edit_file_ok env s p old new content hr hfs hc hw hl with ⟨h1, h2⟩
  have hfs2 : (edit_file env p old new s).2.fs p = some (a ++ new ++ b) := by
    rw [h2, ← hrep]; simp [updateFS]
  refine ⟨a, b, hab, hmin, h1, hfs2, ?_⟩
  intro hno
  have hc2 : containsB old (a ++ new ++ b) = false := by
    cases h : containsB old (a ++ new ++ b) with
    | false => rfl
    | true => exact absurd ((containsB_iff _ _).mp h) hno
  rw [edit_file_notfound env (edit_file env p old new s).2 p old new
    (a ++ new ++ b) hr hfs2 hc2]
theorem edit_replaces_first_occurrence_witness :
    ∃ a b, "aab".toList = a ++ "ab".toList ++ b ∧
      (∀ a' b', "aab".toList = a' ++ "ab".toList ++ b' →
        a.length ≤ a'.length) ∧
      (edit_file envOk "f.txt".toList "ab".toList "b".toList st0).1 = .okUnit ∧
      (edit_file envOk "f.txt".toList "ab".toList "b".toList st0).2.fs
        "f.txt".toList = some (a ++ "b".toList ++ b) ∧
      (¬ occursIn "ab".toList (a ++ "b".toList ++ b) →
        (edit_file envOk "f.txt".toList "ab".toList "b".toList
          (edit_file envOk "f.txt".toList "ab".toList "b".toList st0).2).1 =
          .failure "Old text not found".toList) :=
  edit_replaces_first_occurrence envOk st0 "f.txt".toList "ab".toList
    "b".toList "aab".toList rfl rfl rfl (by decide)
    ⟨"a".toList, [], by decide⟩

/-- C2 counterexample: in the file `f.txt` with content `"aab"`, the text
`"ab"` occurs exactly once; `edit(f.txt, "ab", "b")` succeeds, but — contrary
to the claim that `old_text` is "now absent" and a second call fails with
`"Old text not found"` — the replacement produces `"ab"`, which contains
`"ab"` again, so the second identical `edit` call also succeeds. -/
theorem edit_second_call_counterexample :
    countOcc "ab".toList "aab".toList = 1 ∧
    (edit_file envOk "f.txt".toList "ab".toList "b".toList st0).2.fs
      "f.txt".toList = some "ab".toList ∧
    (edit_file envOk "f.txt".toList "ab".toList "b".toList
      (edit_file envOk "f.txt".toList "ab".toList "b".toList st0).2).1.success =
      true := by
  decide

/-- C9 (amended): when `edit` fails because reading the file raises, because
the file is absent, or because `old_text` does not occur verbatim, the target
file's content is unchanged; and whenever `edit` changes the file at all, the
occurrence check passed and the new content is exactly the replacement result
— which includes the case where the subsequent audit-log append raises and
the tool nevertheless reports `success: false`. -/
theorem edit_failure_preserves_file (env : IOEnv) (s : AgentState)
    (p old new m content : Str) :
    (env.readRaise p = some m →
      (edit_file env p old new s).1 = .failure m ∧
      (edit_file env p old new s).2.fs p = s.fs p) ∧
    (env.readRaise p = none → s.fs p = some content →
      containsB old content = false →
      (edit_file env p old new s).1 = .failure "Old text not found".toList ∧
      (edit_file env p old new s).2.fs p = s.fs p) ∧
    (env.readRaise p = none → s.fs p = none →
      (edit_file env p old new s).1.success = false ∧
      (edit_file env p old new s).2.fs p = s.fs p) ∧
    ((edit_file env p old new s).2.fs p ≠ s.fs p →
      ∃ c0, s.fs p = some c0 ∧ containsB old c0 = true ∧
        (edit_file env p old new s).2.fs p =
          some (replaceFirst old new c0)) := by
  refine ⟨?_, ?_, ?_, ?_⟩
  · intro hr
    rw [edit_file_readfail env s p old new m hr]
    exact ⟨rfl, rfl⟩
  · intro hr hfs hc
    rw [edit_file_notfound env s p old new content hr hfs hc]
    exact ⟨rfl, rfl⟩
  · intro hr hfs
    rw [edit_file_nofile env s p old new hr hfs]
    exact ⟨rfl, rfl⟩
  · intro hne
    cases hr : env.readRaise p with
    | some e =>
        exact absurd (by rw [edit_file_readfail env s p old new e hr]) hne
    | none =>
        cases hf : s.fs p with
        | none =>
            exact absurd (by rw [edit_file_nofile env s p old new hr hf]) hne
        | some c0 =>
            cases hc : containsB old c0 with
            | false =>
                exact absurd
                  (by rw [edit_file_notfound env s p old new c0 hr hf hc]) hne
            | true =>
                cases hw : env.writeRaise p with
                | some e =>
                    exact absurd
                      (by rw [edit_file_writefail env s p old new c0 e hr hf hc hw])
                      hne
                | none =>
                    refine ⟨c0, rfl, hc, ?_⟩
                    rw [edit_file_fs_after_write env s p old new c0 hr hf hc hw]
                    simp [updateFS]
theorem edit_failure_preserves_file_witness :
    (edit_file envOk "f.txt".toList "zz".toList "b".toList st0).1 =
      .failure "Old text not found".toList ∧
    (edit_file envOk "f.txt".toList "zz".toList "b".toList st0).2.fs
      "f.txt".toList = st0.fs "f.txt".toList :=
  (edit_failure_preserves_file envOk st0 "f.txt".toList "zz".toList
    "b".toList [] "aab".toList).2.1 rfl (by decide) (by decide)

/-- C9 counterexample: with the structured-log append raising, `edit` on
`f.txt` (content `"aab"`, pattern `"ab"` present) reports `success: false`,
yet the file has been rewritten to `"ab"` — so "the file is rewritten only on
the success path" is false as stated. -/
theorem edit_logfail_rewrites_counterexample :
    (edit_file envLogFail "f.txt".toList "ab".toList "b".toList st0).1.success =
      false ∧
    st0.fs "f.txt".toList = some "aab".toList ∧
    (edit_file envLogFail "f.txt".toList "ab".toList "b".toList st0).2.fs
      "f.txt".toList = some "ab".toList := by
  decide

/-- C10: a tool invocation reports `success: true` only if its `tool_use`
record was appended to the structured log; and when the append raises, the
tool returns `success: false` carrying that exception's message even though
the filesystem effect of `write` (respectively `edit`) has already been
applied and persists. -/
theorem success_requires_log_append (env : IOEnv) (s : AgentState)
    (call : ToolCall) (p c old new content m : Str) :
    ((runTool env call s).1.success = true →
      (runTool env call s).2.agentLog =
        s.agentLog ++ [⟨.toolUse (toolName call) (toolArgs call), s.clock⟩]) ∧
    (env.logRaise = some m → env.writeRaise p = none →
      write_file env p c s = (.failure m, { s with fs := updateFS s.fs p c })) ∧
    (env.logRaise = some m → env.readRaise p = none → s.fs p = some content →
      containsB old content = true → env.writeRaise p = none →
      edit_file env p old new s =
        (.failure m,
          { s with fs := updateFS s.fs p (replaceFirst old new content) })) := by
  refine ⟨?_, ?_, ?_⟩
  · intro ht
    rcases tool_shape env call s with ⟨_, hl⟩ | ⟨hs, _⟩
    · exact hl
    · rw [hs] at ht; cases ht
  · intro hm hw
    simp [write_file, writeFS, hw, log_to_agent, hm]
  · intro hm hr hfs hc hw
    simp [edit_file, readFS, hr, hfs, hc, writeFS, hw, log_to_agent, hm]
theorem success_requires_log_append_witness :
    write_file envLogFail "g.txt".toList "xyz".toList st0 =
      (.failure "disk full".toList,
        { st0 with fs := updateFS st0.fs "g.txt".toList "xyz".toList }) :=
  (success_requires_log_append envLogFail st0 (.read []) "g.txt".toList
    "xyz".toList [] [] [] "disk full".toList).2.1 rfl rfl

/-- C3 counterexample: with the structured-log append raising, the command
`"exit 1"` spawns and its process completes in 1 second — well within the
60-second timeout — yet `run_bash` returns `success: false` carrying the
append exception's message, so "success: false exactly when spawning raises
or the command exceeds the timeout" is false as stated. -/
theorem run_bash_logfail_counterexample :
    envLogFail.proc "exit 1".toList = .runs 1 [] [] 1 ∧
    (run_bash envLogFail "exit 1".toList st0).1 =
      .failure "disk full".toList ∧
    (run_bash envLogFail "exit 1".toList st0).1.success = false := by
  decide

/-- C3 (amended): a command whose process spawns and finishes within the
60-second wall-clock timeout yields `success: true` carrying the process's
stdout and stderr whatever its exit status, provided the subsequent
audit-log append does not raise; and the result is `success: false` with an
error message exactly when spawning raises, the command exceeds the
60-second timeout, or the process completes in time but the audit-log
append raises. -/
theorem run_bash_success_iff (env : IOEnv) (cmd : Str) (s : AgentState)
    (d : Nat) (out errS : Str) (code : Nat) :
    (env.proc cmd = .runs d out errS code → d ≤ 60 → env.logRaise = none →
      (run_bash env cmd s).1 = .okProc out errS) ∧
    ((run_bash env cmd s).1.success = false ↔
      ((∃ e, env.proc cmd = .raises e ∧ (run_bash env cmd s).1 = .failure e) ∨
        (∃ d' out' errS' code', env.proc cmd = .runs d' out' errS' code' ∧
          60 < d' ∧ (run_bash env cmd s).1 = .failure (timeoutMsg cmd)) ∨
        (∃ m d' out' errS' code', env.logRaise = some m ∧
          env.proc cmd = .runs d' out' errS' code' ∧ d' ≤ 60 ∧
          (run_bash env cmd s).1 = .failure m))) := by
  cases hp : env.proc cmd with
  | raises e =>
      have hres : run_bash env cmd s = (.failure e, s) := by simp [run_bash, hp]
      rw [hres]
      refine ⟨?_, ?_⟩
      · intro h _ _
        cases h
      · constructor
        · intro _
          exact Or.inl ⟨e, rfl, rfl⟩
        · intro _
          rfl
  | runs d' out' errS' code' =>
      by_cases hd : d' ≤ 60
      · cases hl : env.logRaise with
        | some m =>
            have hres : run_bash env cmd s = (.failure m, s) := by
              simp [run_bash, hp, hd, log_to_agent, hl]
            rw [hres]
            refine ⟨?_, ?_⟩
            · intro _ _ hlnone
              cases hlnone
            · constructor
              · intro _
                exact Or.inr (Or.inr ⟨m, d', out', errS', code', rfl, rfl, hd, rfl⟩)
              · intro _
                rfl
        | none =>
            have hres : (run_bash env cmd s).1 = .okProc out' errS' := by
              cases hm : env.mdRaise <;>
                simp [run_bash, hp, hd, log_to_agent, hl, hm]
            rw [hres]
            refine ⟨?_, ?_⟩
            · intro h _ _
              injection h with h1 h2 h3 h4
              rw [h2, h3]
            · constructor
              · intro hfalse
                exact absurd hfalse (by simp [ToolResult.success])
              · rintro (⟨e, he, _⟩ | ⟨d2, o2, e2, c2, h2, hgt, _⟩ |
                  ⟨m, d2, o2, e2, c2, hm2, _, _, _⟩)
                · cases he
                · injection h2 with h1 _ _ _
                  exact absurd hgt (by omega)
                · cases hm2
      · have hres : run_bash env cmd s = (.failure (timeoutMsg cmd), s) := by
          simp [run_bash, hp, hd]
        rw [hres]
        refine ⟨?_, ?_⟩
        · intro h hdle _
          injection h with h1 _ _ _
          exact absurd hdle (by omega)
        · constructor
          · intro _
            exact Or.inr (Or.inl ⟨d', out', errS', code', rfl, by omega, rfl⟩)
          · intro _
            rfl
theorem run_bash_success_iff_witness :
    (run_bash envOk "exit 1".toList st0).1 = .okProc [] [] :=
  (run_bash_success_iff envOk "exit 1".toList st0 1 [] [] 1).1 rfl
    (by decide) rfl

/-- C4: for every `log_to_agent` call in which writing the human-readable
transcript raises, the exception is caught and a warning is emitted on the
diagnostic stream, the call returns normally, and the structured record —
stamped with the current clock — is appended in full: the transcript failure
neither prevents nor rolls back the structured-log append. -/
theorem transcript_failure_nonfatal (env : IOEnv) (entry : EntryData)
    (s : AgentState) (m : Str)
    (hl : env.logRaise = none) (hm : env.mdRaise = some m) :
    log_to_agent env entry s = .ok { s with
      agentLog := s.agentLog ++ [⟨entry, s.clock⟩],
      diagnostics := s.diagnostics ++ [warnMsg m] } := by
  simp [log_to_agent, hl, hm]
theorem transcript_failure_nonfatal_witness :
    log_to_agent envMdFail (.request "hi".toList) st0 = .ok { st0 with
      agentLog := st0.agentLog ++ [⟨.request "hi".toList, st0.clock⟩],
      diagnostics := st0.diagnostics ++
        [warnMsg "prompts.md unwritable".toList] } :=
  transcript_failure_nonfatal envMdFail (.request "hi".toList) st0
    "prompts.md unwritable".toList rfl rfl

/-- C5: in every run whose task file loads and whose provider credential is
absent from the environment, the process prints the diagnostic and exits
with code 1, having called no network endpoint and produced no side effect —
in particular, no audit record is written. -/
theorem missing_credential_exits_early (env : IOEnv)
    (taskLoad : Except Str TaskMap) (task : TaskMap)
    (resp : ProviderResponse) (s0 : AgentState)
    (hload : taskLoad = .ok task) :
    mainRun env none taskLoad resp s0 =
      ⟨1, [keyMissingMsg], false, s0.agentLog⟩ := by
  subst hload; rfl

/-- A fully-populated task mapping. -/
def taskFull : TaskMap :=
  ⟨some "d".toList, some "r".toList, some "i".toList,
    some ⟨some ["t1".toList]⟩, some ["src/x.py".toList]⟩

/-- A task mapping missing the `description` key. -/
def taskNoDesc : TaskMap :=
  ⟨none, some "r".toList, some "i".toList, some ⟨some []⟩, some []⟩
theorem missing_credential_exits_early_witness :
    mainRun envOk none (.ok taskFull) (.wellFormed "ok".toList) st0 =
      ⟨1, [keyMissingMsg], false, st0.agentLog⟩ :=
  missing_credential_exits_early envOk (.ok taskFull) taskFull
    (.wellFormed "ok".toList) st0 rfl

/-- C6: the prompt builder is a pure function of the task record whose output
is exactly the fixed template in the fixed order — role preamble,
`description`, `requirements`, `interface`, the comma-joined `fail_to_pass`
identifiers, the comma-joined `files_to_modify` paths, closing directive —
each field's literal text embedded verbatim as a contiguous substring, and
sequences joined by `", "` in their original order. -/
theorem prompt_template_order (t : TaskSpec) (x y : Str) :
    buildPrompt t =
      promptPre ++ t.description ++ promptReq ++ t.requirements ++ promptIface ++
        t.interface ++ promptTests ++ joinCommaSpace t.fail_to_pass ++
        promptFiles ++ joinCommaSpace t.files_to_modify ++ promptClose ∧
    occursIn t.description (buildPrompt t) ∧
    occursIn t.requirements (buildPrompt t) ∧
    occursIn t.interface (buildPrompt t) ∧
    occursIn (joinCommaSpace t.fail_to_pass) (buildPrompt t) ∧
    occursIn (joinCommaSpace t.files_to_modify) (buildPrompt t) ∧
    joinCommaSpace [x] = x ∧
    joinCommaSpace [x, y] = x ++ ", ".toList ++ y := by
  refine ⟨rfl, ?_, ?_, ?_, ?_, ?_, ?_, ?_⟩
  · exact ⟨promptPre,
      promptReq ++ t.requirements ++ promptIface ++ t.interface ++ promptTests ++
        joinCommaSpace t.fail_to_pass ++ promptFiles ++
        joinCommaSpace t.files_to_modify ++ promptClose,
      by simp [buildPrompt]⟩
  · exact ⟨promptPre ++ t.description ++ promptReq,
      promptIface ++ t.interface ++ promptTests ++ joinCommaSpace t.fail_to_pass ++
        promptFiles ++ joinCommaSpace t.files_to_modify ++ promptClose,
      by simp [buildPrompt]⟩
  · exact ⟨promptPre ++ t.description ++ promptReq ++ t.requirements ++ promptIface,
      promptTests ++ joinCommaSpace t.fail_to_pass ++ promptFiles ++
        joinCommaSpace t.files_to_modify ++ promptClose,
      by simp [buildPrompt]⟩
  · exact ⟨promptPre ++ t.description ++ promptReq ++ t.requirements ++
        promptIface ++ t.interface ++ promptTests,
      promptFiles ++ joinCommaSpace t.files_to_modify ++ promptClose,
      by simp [buildPrompt]⟩
  · exact ⟨promptPre ++ t.description ++ promptReq ++ t.requirements ++
        promptIface ++ t.interface ++ promptTests ++
        joinCommaSpace t.fail_to_pass ++ promptFiles,
      promptClose,
      by simp [buildPrompt]⟩
  · simp [joinCommaSpace, List.intercalate]
  · simp [joinCommaSpace, List.intercalate, List.intersperse]

/-- C7: loading a task file that is valid structured data but misses a
required key such as `description` succeeds — the loader performs no schema
validation — and the failure surfaces only at prompt-build time as a
`KeyError` for that key. -/
theorem load_no_validation_keyerror_deferred (m : TaskMap)
    (hd : m.description = none) :
    load_task (.ok m) = .ok m ∧
    promptOfMap m = .error (.keyError "description".toList) := by
  refine ⟨rfl, ?_⟩
  simp [promptOfMap, getKey, hd]
theorem load_no_validation_keyerror_deferred_witness :
    load_task (.ok taskNoDesc) = .ok taskNoDesc ∧
    promptOfMap taskNoDesc = .error (.keyError "description".toList) :=
  load_no_validation_keyerror_deferred taskNoDesc rfl

/-- C8: with no I/O fault on the path, `write(path, X)` succeeds and a
subsequent `read(path)` succeeds and returns content equal to `X`. -/
theorem write_read_roundtrip (env : IOEnv) (s : AgentState) (p x : Str)
    (hw : env.writeRaise p = none) (hr : env.readRaise p = none)
    (hl : env.logRaise = none) :
    (write_file env p x s).1 = .okUnit ∧
    (read_file env p (write_file env p x s).2).1 = .okContent x := by
  have hfs : (write_file env p x s).2.fs = updateFS s.fs p x := by
    cases hm : env.mdRaise <;> simp [write_file, writeFS, hw, log_to_agent, hl, hm]
  have h1 : (write_file env p x s).1 = .okUnit := by
    cases hm : env.mdRaise <;> simp [write_file, writeFS, hw, log_to_agent, hl, hm]
  refine ⟨h1, ?_⟩
  have hread : (write_file env p x s).2.fs p = some x := by
    rw [hfs]; simp [updateFS]
  cases hm : env.mdRaise <;>
    simp [read_file, readFS, hr, hread, log_to_agent, hl, hm]
theorem write_read_roundtrip_witness :
    (write_file envOk "g.txt".toList "hello".toList st0).1 = .okUnit ∧
    (read_file envOk "g.txt".toList
      (write_file envOk "g.txt".toList "hello".toList st0).2).1 =
      .okContent "hello".toList :=
  write_read_roundtrip envOk st0 "g.txt".toList "hello".toList rfl rfl rfl
